import Mathlib

/-!
Verification of the SpaceTravel software rasterizer.

Shallow embedding conventions:
* `f32` scalars are idealised as real numbers (`ℝ`); `f32` square root,
  sine and integral `powf` become `Real.sqrt`, `Real.sin` and `^ (n : ℕ)`.
* `u8` channel values are `Fin 256`; packed `u32` colors are `ℕ`.
* The Rust cast `as u8` / `as usize` saturates and truncates toward zero;
  it is modelled by `f32ToU8` / `f32ToUsize` below.
* `fastnoise_lite::FastNoiseLite` is an external crate; it is modelled as a
  pair of pure sampling functions (the generator is immutable while shading).
* The repository's `color.rs`, `framebuffer.rs`, `triangle.rs` and
  `vertex.rs` are not present under `src/`; the definitions taken from them
  are marked `Modelled from the spec:` and follow spec.md's descriptions.
All other definitions are translated from `src/src/shaders.rs`,
`src/src/fragment.rs`, `src/src/celestial_body.rs` and `src/src/main.rs`.
-/

namespace SpaceTravel

noncomputable section

/-- 2-vector of `f32`, as `nalgebra_glm::Vec2`. -/
structure Vec2 where
  x : ℝ
  y : ℝ

/-- 3-vector of `f32`, as `nalgebra_glm::Vec3`. -/
structure Vec3 where
  x : ℝ
  y : ℝ
  z : ℝ

/-- 4-vector of `f32`, as `nalgebra_glm::Vec4`. -/
structure Vec4 where
  x : ℝ
  y : ℝ
  z : ℝ
  w : ℝ

/-- The Rust saturating cast `f32 as u8`: clamp into `[0, 255]` and truncate
toward zero.  For negative inputs the floor is negative and `Int.toNat`
yields `0`, matching saturation; for non-negative inputs floor equals
truncation. -/
def f32ToU8 (v : ℝ) : Fin 256 :=
  ⟨min 255 (Int.toNat ⌊v⌋), Nat.lt_succ_of_le (Nat.min_le_left _ _)⟩

/-- The Rust saturating cast `f32 as usize` (negative values saturate to 0). -/
def f32ToUsize (v : ℝ) : ℕ :=
  Int.toNat ⌊v⌋

/-- Rust `f32::clamp(lo, hi)`: if below `lo` take `lo`, if above `hi` take
`hi`, otherwise the value itself. -/
def rustClamp (v lo hi : ℝ) : ℝ :=
  if v < lo then lo else if hi < v then hi else v

/-- Modelled from the spec: `color.rs` is not under `src/`.  Per spec.md §2,
`Color` is a fixed-point RGB value (one byte per channel) with conversion
to and from a packed 24-bit integer. -/
structure Color where
  r : Fin 256
  g : Fin 256
  b : Fin 256

/-- Modelled from the spec: `Color::new(r, g, b)` from byte channels. -/
def Color.new (r g b : Fin 256) : Color :=
  ⟨r, g, b⟩

/-- Modelled from the spec: `Color::to_hex`, packing into `0xRRGGBB`. -/
def Color.to_hex (c : Color) : ℕ :=
  c.r.val * 65536 + c.g.val * 256 + c.b.val

/-- Modelled from the spec: `Color::from_hex`, unpacking `0xRRGGBB`. -/
def Color.from_hex (h : ℕ) : Color :=
  ⟨⟨h / 65536 % 256, Nat.mod_lt _ (by norm_num)⟩,
   ⟨h / 256 % 256, Nat.mod_lt _ (by norm_num)⟩,
   ⟨h % 256, Nat.mod_lt _ (by norm_num)⟩⟩

/-- Modelled from the spec: the `Mul<f32>` operator of `Color` (`color.rs`
missing): channel-wise scalar multiplication with the saturating `as u8`
cast, spec.md §4.4's "final color multiplied by" an intensity. -/
def Color.mulScalar (c : Color) (s : ℝ) : Color :=
  Color.new (f32ToU8 (c.r.val * s)) (f32ToU8 (c.g.val * s)) (f32ToU8 (c.b.val * s))

/-- 3×3 `f32` matrix (`nalgebra_glm::Mat3`), fields named row-major as in
`Matrix3::new(m11, m12, m13, m21, ..., m33)`. -/
@[ext]
structure Mat3 where
  m11 : ℝ
  m12 : ℝ
  m13 : ℝ
  m21 : ℝ
  m22 : ℝ
  m23 : ℝ
  m31 : ℝ
  m32 : ℝ
  m33 : ℝ

/-- 4×4 `f32` matrix (`nalgebra_glm::Mat4`), fields named row-major. -/
structure Mat4 where
  m11 : ℝ
  m12 : ℝ
  m13 : ℝ
  m14 : ℝ
  m21 : ℝ
  m22 : ℝ
  m23 : ℝ
  m24 : ℝ
  m31 : ℝ
  m32 : ℝ
  m33 : ℝ
  m34 : ℝ
  m41 : ℝ
  m42 : ℝ
  m43 : ℝ
  m44 : ℝ

/-- The all-zero 4×4 matrix (used only to build concrete test inputs). -/
def Mat4.zero : Mat4 :=
  ⟨0, 0, 0, 0, 0, 0, 0, 0, 0, 0, 0, 0, 0, 0, 0, 0⟩

/-- The identity 4×4 matrix. -/
def Mat4.identity : Mat4 :=
  ⟨1, 0, 0, 0, 0, 1, 0, 0, 0, 0, 1, 0, 0, 0, 0, 1⟩

/-- Matrix product of 4×4 matrices (`Mul` of `nalgebra` matrices). -/
def Mat4.mul (a b : Mat4) : Mat4 :=
  ⟨a.m11 * b.m11 + a.m12 * b.m21 + a.m13 * b.m31 + a.m14 * b.m41,
   a.m11 * b.m12 + a.m12 * b.m22 + a.m13 * b.m32 + a.m14 * b.m42,
   a.m11 * b.m13 + a.m12 * b.m23 + a.m13 * b.m33 + a.m14 * b.m43,
   a.m11 * b.m14 + a.m12 * b.m24 + a.m13 * b.m34 + a.m14 * b.m44,
   a.m21 * b.m11 + a.m22 * b.m21 + a.m23 * b.m31 + a.m24 * b.m41,
   a.m21 * b.m12 + a.m22 * b.m22 + a.m23 * b.m32 + a.m24 * b.m42,
   a.m21 * b.m13 + a.m22 * b.m23 + a.m23 * b.m33 + a.m24 * b.m43,
   a.m21 * b.m14 + a.m22 * b.m24 + a.m23 * b.m34 + a.m24 * b.m44,
   a.m31 * b.m11 + a.m32 * b.m21 + a.m33 * b.m31 + a.m34 * b.m41,
   a.m31 * b.m12 + a.m32 * b.m22 + a.m33 * b.m32 + a.m34 * b.m42,
   a.m31 * b.m13 + a.m32 * b.m23 + a.m33 * b.m33 + a.m34 * b.m43,
   a.m31 * b.m14 + a.m32 * b.m24 + a.m33 * b.m34 + a.m34 * b.m44,
   a.m41 * b.m11 + a.m42 * b.m21 + a.m43 * b.m31 + a.m44 * b.m41,
   a.m41 * b.m12 + a.m42 * b.m22 + a.m43 * b.m32 + a.m44 * b.m42,
   a.m41 * b.m13 + a.m42 * b.m23 + a.m43 * b.m33 + a.m44 * b.m43,
   a.m41 * b.m14 + a.m42 * b.m24 + a.m43 * b.m34 + a.m44 * b.m44⟩

/-- 4×4 matrix applied to a 4-vector. -/
def Mat4.mulVec4 (a : Mat4) (v : Vec4) : Vec4 :=
  ⟨a.m11 * v.x + a.m12 * v.y + a.m13 * v.z + a.m14 * v.w,
   a.m21 * v.x + a.m22 * v.y + a.m23 * v.z + a.m24 * v.w,
   a.m31 * v.x + a.m32 * v.y + a.m33 * v.z + a.m34 * v.w,
   a.m41 * v.x + a.m42 * v.y + a.m43 * v.z + a.m44 * v.w⟩

/-- The identity 3×3 matrix (`Mat3::identity`). -/
def Mat3.identity : Mat3 :=
  ⟨1, 0, 0, 0, 1, 0, 0, 0, 1⟩

/-- Transpose of a 3×3 matrix. -/
def Mat3.transpose (a : Mat3) : Mat3 :=
  ⟨a.m11, a.m21, a.m31, a.m12, a.m22, a.m32, a.m13, a.m23, a.m33⟩

/-- Matrix product of 3×3 matrices. -/
def Mat3.mul (a b : Mat3) : Mat3 :=
  ⟨a.m11 * b.m11 + a.m12 * b.m21 + a.m13 * b.m31,
   a.m11 * b.m12 + a.m12 * b.m22 + a.m13 * b.m32,
   a.m11 * b.m13 + a.m12 * b.m23 + a.m13 * b.m33,
   a.m21 * b.m11 + a.m22 * b.m21 + a.m23 * b.m31,
   a.m21 * b.m12 + a.m22 * b.m22 + a.m23 * b.m32,
   a.m21 * b.m13 + a.m22 * b.m23 + a.m23 * b.m33,
   a.m31 * b.m11 + a.m32 * b.m21 + a.m33 * b.m31,
   a.m31 * b.m12 + a.m32 * b.m22 + a.m33 * b.m32,
   a.m31 * b.m13 + a.m32 * b.m23 + a.m33 * b.m33⟩

/-- 3×3 matrix applied to a 3-vector. -/
def Mat3.mulVec (a : Mat3) (v : Vec3) : Vec3 :=
  ⟨a.m11 * v.x + a.m12 * v.y + a.m13 * v.z,
   a.m21 * v.x + a.m22 * v.y + a.m23 * v.z,
   a.m31 * v.x + a.m32 * v.y + a.m33 * v.z⟩

/-- Determinant of a 3×3 matrix. -/
def Mat3.det (a : Mat3) : ℝ :=
  a.m11 * (a.m22 * a.m33 - a.m23 * a.m32)
    - a.m12 * (a.m21 * a.m33 - a.m23 * a.m31)
    + a.m13 * (a.m21 * a.m32 - a.m22 * a.m31)

/-- `nalgebra`'s `Matrix3::try_inverse`: `none` for a singular matrix, the
cofactor inverse otherwise (exact arithmetic stands in for the numeric
invertibility test). -/
def Mat3.tryInverse (a : Mat3) : Option Mat3 :=
  if a.det = 0 then none
  else some
    ⟨(a.m22 * a.m33 - a.m23 * a.m32) / a.det,
     (a.m13 * a.m32 - a.m12 * a.m33) / a.det,
     (a.m12 * a.m23 - a.m13 * a.m22) / a.det,
     (a.m23 * a.m31 - a.m21 * a.m33) / a.det,
     (a.m11 * a.m33 - a.m13 * a.m31) / a.det,
     (a.m13 * a.m21 - a.m11 * a.m23) / a.det,
     (a.m21 * a.m32 - a.m22 * a.m31) / a.det,
     (a.m12 * a.m31 - a.m11 * a.m32) / a.det,
     (a.m11 * a.m22 - a.m12 * a.m21) / a.det⟩

/-- The upper-left 3×3 block of a 4×4 matrix (rows 1-3, columns 1-3). -/
def Mat4.upperLeft3 (m : Mat4) : Mat3 :=
  ⟨m.m11, m.m12, m.m13, m.m21, m.m22, m.m23, m.m31, m.m32, m.m33⟩

/-- The external `fastnoise_lite::FastNoiseLite` generator, reduced to its
two pure sampling entry points used by the shaders (`get_noise_3d`,
`get_noise_2d`); after construction the Rust object is only read. -/
structure FastNoiseLite where
  get_noise_3d : ℝ → ℝ → ℝ → ℝ
  get_noise_2d : ℝ → ℝ → ℝ

/-- The generator produced by `FastNoiseLite::new()` followed by
`set_noise_type(Some(NoiseType::OpenSimplex2))`: a fixed, deterministic
sampler (library default seed 1337).  The concrete sample values of the
external crate are not modelled; only that the configuration is a constant
independent of the draw call. -/
def FastNoiseLite.openSimplex2Default : FastNoiseLite :=
  ⟨fun _ _ _ => 0, fun _ _ => 0⟩

/-- `Uniforms` from `shaders.rs`: the four matrices, the scalar time, and
the noise generator. -/
structure Uniforms where
  model_matrix : Mat4
  view_matrix : Mat4
  projection_matrix : Mat4
  viewport_matrix : Mat4
  time : ℝ
  noise : FastNoiseLite

/-- `Uniforms::new` from `shaders.rs`: stores the matrices and time and
installs a freshly built default OpenSimplex2 generator. -/
def Uniforms.new (model_matrix view_matrix projection_matrix viewport_matrix : Mat4)
    (time : ℝ) : Uniforms :=
  ⟨model_matrix, view_matrix, projection_matrix, viewport_matrix, time,
   FastNoiseLite.openSimplex2Default⟩

/-- `Vertex` as used by `shaders.rs` (its `vertex.rs` is not under `src/`;
the fields are those read and written by `vertex_shader`). -/
structure Vertex where
  position : Vec3
  normal : Vec3
  tex_coords : Vec2
  color : Color
  transformed_position : Vec3
  transformed_normal : Vec3

/-- Modelled from the spec: `Vertex::new(position, normal, tex_coords)`
(`vertex.rs` missing); per spec.md §3 the transformed fields are only
meaningful after the vertex stage, so they start zeroed, and the optional
color defaults to black. -/
def Vertex.new (position normal : Vec3) (tex_coords : Vec2) : Vertex :=
  ⟨position, normal, tex_coords, Color.from_hex 0, ⟨0, 0, 0⟩, ⟨0, 0, 0⟩⟩

/-- `Fragment` from `fragment.rs`. -/
structure Fragment where
  position : Vec2
  color : Color
  depth : ℝ
  normal : Vec3
  vertex_position : Vec3
  intensity : ℝ

/-- `ShaderType` from `celestial_body.rs`. -/
inductive ShaderType where
  | Sun
  | RockyPlanet
  | GasGiant
  | Moon
  | RingedPlanet
  | Starfield
  | Ship

/-- `vertex_shader` from `shaders.rs`.  Note on `model_mat3`: the source
builds it as `Mat3::new(m[0], m[1], m[2], m[4], m[5], m[6], m[8], m[9],
m[10])`; `nalgebra`'s `usize` indexing is column-major, so `m[0], m[1],
m[2]` are the first *column* `m11, m21, m31` of the model matrix, etc.,
while `Mat3::new` takes its arguments row-major — the built matrix is the
transpose of the model matrix's upper-left 3×3 block. -/
def vertex_shader (vertex : Vertex) (uniforms : Uniforms) : Vertex :=
  let position : Vec4 := ⟨vertex.position.x, vertex.position.y, vertex.position.z, 1⟩
  let transformed :=
    ((uniforms.projection_matrix.mul uniforms.view_matrix).mul
      uniforms.model_matrix).mulVec4 position
  let w := transformed.w
  let ndc_position : Vec4 := ⟨transformed.x / w, transformed.y / w, transformed.z / w, 1⟩
  let screen_position := uniforms.viewport_matrix.mulVec4 ndc_position
  let model_mat3 : Mat3 :=
    ⟨uniforms.model_matrix.m11, uniforms.model_matrix.m21, uniforms.model_matrix.m31,
     uniforms.model_matrix.m12, uniforms.model_matrix.m22, uniforms.model_matrix.m32,
     uniforms.model_matrix.m13, uniforms.model_matrix.m23, uniforms.model_matrix.m33⟩
  let normal_matrix := (model_mat3.transpose.tryInverse).getD Mat3.identity
  let transformed_normal := normal_matrix.mulVec vertex.normal
  { vertex with
    transformed_position := ⟨screen_position.x, screen_position.y, screen_position.z⟩
    transformed_normal := transformed_normal }

/-- `lerp_color` from `shaders.rs`: clamp the factor, unpack both colors
through their hex representation, interpolate each channel linearly and
truncate back to bytes. -/
def lerp_color (a b : Color) (t : ℝ) : Color :=
  let t' := rustClamp t 0 1
  let a_hex := a.to_hex
  let b_hex := b.to_hex
  let r1 : ℝ := (a_hex / 65536 % 256 : ℕ)
  let g1 : ℝ := (a_hex / 256 % 256 : ℕ)
  let b1 : ℝ := (a_hex % 256 : ℕ)
  let r2 : ℝ := (b_hex / 65536 % 256 : ℕ)
  let g2 : ℝ := (b_hex / 256 % 256 : ℕ)
  let b2 : ℝ := (b_hex % 256 : ℕ)
  Color.new
    (f32ToU8 (r1 * (1 - t') + r2 * t'))
    (f32ToU8 (g1 * (1 - t') + g2 * t'))
    (f32ToU8 (b1 * (1 - t') + b2 * t'))

/-- `blend_colors` from `shaders.rs`: identical shape to `lerp_color` with
the factor clamped the same way. -/
def blend_colors (base overlay : Color) (factor : ℝ) : Color :=
  let factor' := rustClamp factor 0 1
  let base_hex := base.to_hex
  let overlay_hex := overlay.to_hex
  let r1 : ℝ := (base_hex / 65536 % 256 : ℕ)
  let g1 : ℝ := (base_hex / 256 % 256 : ℕ)
  let b1 : ℝ := (base_hex % 256 : ℕ)
  let r2 : ℝ := (overlay_hex / 65536 % 256 : ℕ)
  let g2 : ℝ := (overlay_hex / 256 % 256 : ℕ)
  let b2 : ℝ := (overlay_hex % 256 : ℕ)
  Color.new
    (f32ToU8 (r1 * (1 - factor') + r2 * factor'))
    (f32ToU8 (g1 * (1 - factor') + g2 * factor'))
    (f32ToU8 (b1 * (1 - factor') + b2 * factor'))

/-- The radial distance of a fragment's model-space position from the
origin (`distance_from_center` in `sun_shader`). -/
def sun_distance (fragment : Fragment) : ℝ :=
  Real.sqrt (fragment.vertex_position.x * fragment.vertex_position.x
    + fragment.vertex_position.y * fragment.vertex_position.y
    + fragment.vertex_position.z * fragment.vertex_position.z)

/-- Layer 1 of `sun_shader`: the radial 2-stop gradient core→mid→edge. -/
def sun_base_color (fragment : Fragment) : Color :=
  if sun_distance fragment < 0.5 then
    lerp_color (Color.from_hex 0xFFFACD) (Color.from_hex 0xFFD700)
      (sun_distance fragment * 2)
  else
    lerp_color (Color.from_hex 0xFFD700) (Color.from_hex 0xFF8C00)
      ((sun_distance fragment - 0.5) * 2)

/-- Layer 2 noise sample of `sun_shader` (`plasma_zoom = 8`,
`plasma_speed = 0.3`). -/
def sun_plasma_noise (fragment : Fragment) (uniforms : Uniforms) : ℝ :=
  uniforms.noise.get_noise_3d
    (fragment.vertex_position.x * 8 + uniforms.time * 0.3)
    (fragment.vertex_position.y * 8)
    (fragment.vertex_position.z * 8 + uniforms.time * 0.3 * 0.5)

/-- Layer 2 of `sun_shader`: the plasma blend at weight
`plasma_intensity * 0.3`. -/
def sun_with_plasma (fragment : Fragment) (uniforms : Uniforms) : Color :=
  blend_colors (sun_base_color fragment) (Color.from_hex 0xFFAA00)
    ((sun_plasma_noise fragment uniforms + 1) * 0.5 * 0.3)

/-- Layer 3 noise sample of `sun_shader` (`spot_zoom = 3`, slower drift). -/
def sun_spot_noise (fragment : Fragment) (uniforms : Uniforms) : ℝ :=
  uniforms.noise.get_noise_3d
    (fragment.vertex_position.x * 3)
    (fragment.vertex_position.y * 3 + uniforms.time * 0.1)
    (fragment.vertex_position.z * 3)

/-- `sun_shader` from `shaders.rs`: when the spot noise exceeds 0.5, blend
in the dark sunspot and then the `(1 - distance)^3` corona glow; otherwise
return the plasma layer unchanged. -/
def sun_shader (fragment : Fragment) (uniforms : Uniforms) : Color :=
  if 0.5 < sun_spot_noise fragment uniforms then
    blend_colors
      (blend_colors (sun_with_plasma fragment uniforms) (Color.from_hex 0x994400)
        ((sun_spot_noise fragment uniforms - 0.5) * 2 * 0.4))
      (Color.from_hex 0xFFFFAA)
      ((1 - sun_distance fragment) ^ (3 : ℕ) * 0.3)
  else
    sun_with_plasma fragment uniforms

/-- Layers 1-3 of `rocky_planet_shader` (everything before the final
intensity multiply). -/
def rocky_layered_color (fragment : Fragment) (uniforms : Uniforms) : Color :=
  let position := fragment.vertex_position
  let time := uniforms.time
  let terrain_noise :=
    uniforms.noise.get_noise_3d (position.x * 4) (position.y * 4) (position.z * 4)
  let base_noise := |terrain_noise|
  let terrain_roughness := base_noise * 0.7 + 0.3
  let base_color :=
    if 0.6 < terrain_roughness then
      blend_colors (Color.from_hex 0xB22222) (Color.from_hex 0x8B4513)
        ((terrain_roughness - 0.6) / 0.4)
    else
      blend_colors (Color.from_hex 0xCD853F) (Color.from_hex 0xB22222)
        (terrain_roughness / 0.6)
  let detail_noise :=
    uniforms.noise.get_noise_3d (position.x * 10 + 100) (position.y * 10) (position.z * 10)
  let detail_color :=
    if 0.3 < detail_noise then Color.from_hex 0xF4A460 else Color.from_hex 0xA0522D
  let base_color := blend_colors base_color detail_color (|detail_noise| * 0.4)
  let dust_noise :=
    uniforms.noise.get_noise_3d (position.x * 8 + time * 0.1) (position.y * 8)
      (position.z * 8 + time * 0.1 * 0.3)
  if 0.6 < dust_noise then
    blend_colors base_color (Color.from_hex 0xD2691E) ((dust_noise - 0.6) / 0.4 * 0.3)
  else
    base_color

/-- `rocky_planet_shader` from `shaders.rs`: the layered color scaled by
`fragment.intensity * 0.7 + 0.3`. -/
def rocky_planet_shader (fragment : Fragment) (uniforms : Uniforms) : Color :=
  (rocky_layered_color fragment uniforms).mulScalar (fragment.intensity * 0.7 + 0.3)

/-- `gas_giant_shader` from `shaders.rs`. -/
def gas_giant_shader (fragment : Fragment) (uniforms : Uniforms) : Color :=
  let position := fragment.vertex_position
  let time := uniforms.time
  let band_position := position.y * 15
  let color1 := Color.from_hex 0xd4a574
  let color2 := Color.from_hex 0xc17f4a
  let color3 := Color.from_hex 0x8b6239
  let color4 := Color.from_hex 0xe6c9a8
  let band_value := (Real.sin band_position + 1) * 0.5
  let base_color :=
    if band_value < 0.25 then lerp_color color1 color2 (band_value * 4)
    else if band_value < 0.5 then lerp_color color2 color3 ((band_value - 0.25) * 4)
    else if band_value < 0.75 then lerp_color color3 color4 ((band_value - 0.5) * 4)
    else lerp_color color4 color1 ((band_value - 0.75) * 4)
  let turbulence_noise :=
    uniforms.noise.get_noise_3d (position.x * 8 + time * 0.3) (position.y * 8 * 0.5)
      (position.z * 8)
  let turbulent_offset := turbulence_noise * 0.3
  let turbulent_band := (Real.sin (band_position + turbulent_offset) + 1) * 0.5
  let turbulence_color :=
    if 0.6 < turbulent_band then Color.from_hex 0xa0785a else Color.from_hex 0xe8d4b8
  let with_turbulence := blend_colors base_color turbulence_color (|turbulence_noise| * 0.4)
  let distance_to_spot :=
    Real.sqrt ((position.x - 0.3) ^ (2 : ℕ) + (position.y - 0.2) ^ (2 : ℕ))
  if distance_to_spot < 0.3 then
    let spot_noise :=
      uniforms.noise.get_noise_3d (position.x * 5 + time * 0.05) (position.y * 5)
        (position.z * 5)
    let spot_factor := (1 - distance_to_spot / 0.3) * ((spot_noise + 1) * 0.5)
    let with_spot := blend_colors with_turbulence (Color.from_hex 0xc74440) (spot_factor * 0.7)
    let detail_noise :=
      uniforms.noise.get_noise_3d (position.x * 20 - time * 0.2) (position.y * 20)
        (position.z * 20)
    let final_color := blend_colors with_spot (Color.from_hex 0xf5e6d3) (|detail_noise| * 0.2)
    final_color.mulScalar (fragment.intensity * 0.7 + 0.3)
  else
    with_turbulence.mulScalar (fragment.intensity * 0.7 + 0.3)

/-- Layers 1-4 of `moon_shader` (everything before the final intensity
multiply). -/
def moon_layered_color (fragment : Fragment) (uniforms : Uniforms) : Color :=
  let position := fragment.vertex_position
  let terrain_noise :=
    uniforms.noise.get_noise_3d (position.x * 8) (position.y * 8) (position.z * 8)
  let terrain_color :=
    if 0 < terrain_noise then
      lerp_color (Color.from_hex 0x9b9b9b) (Color.from_hex 0xc5c5c5) terrain_noise
    else
      lerp_color (Color.from_hex 0x9b9b9b) (Color.from_hex 0x6b6b6b) (-terrain_noise)
  let crater_noise :=
    uniforms.noise.get_noise_3d (position.x * 10 + 500) (position.y * 10) (position.z * 10)
  let final_color :=
    if 0.7 < crater_noise then
      blend_colors terrain_color (Color.from_hex 0x4a4a4a) ((crater_noise - 0.7) / 0.3 * 0.8)
    else
      terrain_color
  let detail_noise :=
    uniforms.noise.get_noise_3d (position.x * 25) (position.y * 25) (position.z * 25)
  blend_colors final_color (Color.from_hex 0xb0b0b0) (|detail_noise| * 0.15)

/-- `moon_shader` from `shaders.rs`: the layered color scaled by
`fragment.intensity * 0.6 + 0.4`. -/
def moon_shader (fragment : Fragment) (uniforms : Uniforms) : Color :=
  (moon_layered_color fragment uniforms).mulScalar (fragment.intensity * 0.6 + 0.4)

/-- `distance_from_center` of `rings_shader`: radial distance in the XZ
plane of the fragment's model-space position. -/
def rings_distance (fragment : Fragment) : ℝ :=
  Real.sqrt (fragment.vertex_position.x * fragment.vertex_position.x
    + fragment.vertex_position.z * fragment.vertex_position.z)

/-- `ring_pattern` of `rings_shader`: the squared shifted sine of the
radial position at `ring_frequency = 30`. -/
def ring_pattern_value (fragment : Fragment) : ℝ :=
  (Real.sin (rings_distance fragment * 30) * 0.5 + 0.5) ^ (2 : ℕ)

/-- `rings_shader` from `shaders.rs`: constant `0x000000` outside the
`[1.1, 1.4]` radial band and where the concentric ring pattern is below
0.4; otherwise noise-selected ice/rock/dust colors with a density-driven
final blend toward the hard-coded space color `0x000011`. -/
def rings_shader (fragment : Fragment) (uniforms : Uniforms) : Color :=
  let position := fragment.vertex_position
  let time := uniforms.time
  if rings_distance fragment < 1.1 ∨ 1.4 < rings_distance fragment then
    Color.from_hex 0x000000
  else if ring_pattern_value fragment < 0.4 then
    Color.from_hex 0x000000
  else
    let ice_noise :=
      uniforms.noise.get_noise_3d (position.x * 50 + time * 0.1) (position.y * 50)
        (position.z * 50 - time * 0.1)
    let rock_noise :=
      uniforms.noise.get_noise_3d (position.x * 20 - time * 0.05) (position.y * 20)
        (position.z * 20 + time * 0.05)
    let ice_color := Color.from_hex 0xE6F3FF
    let rock_color := Color.from_hex 0x8B7355
    let dust_color := Color.from_hex 0xD2B48C
    let base_color :=
      if 0.3 < ice_noise then lerp_color dust_color ice_color ((ice_noise - 0.3) / 0.7)
      else if 0.1 < rock_noise then lerp_color dust_color rock_color ((rock_noise - 0.1) / 0.9)
      else dust_color
    let density_noise :=
      uniforms.noise.get_noise_2d (rings_distance fragment * 8) (time * 0.02)
    let density_factor := (density_noise + 1) * 0.5
    let final_alpha := ring_pattern_value fragment * density_factor
    if final_alpha < 0.3 then Color.from_hex 0x000000
    else blend_colors (Color.from_hex 0x000011) base_color (final_alpha * 0.5)

/-- `starfield_shader` from `shaders.rs`: constant black placeholder. -/
def starfield_shader (_fragment : Fragment) (_uniforms : Uniforms) : Color :=
  Color.from_hex 0x000000

/-- `ship_shader` from `shaders.rs`. -/
def ship_shader (fragment : Fragment) (uniforms : Uniforms) : Color :=
  let position := fragment.vertex_position
  let time := uniforms.time
  let base_metal := Color.from_hex 0x8090A0
  let highlight := Color.from_hex 0xB0C0D0
  let shadow := Color.from_hex 0x506070
  let metallic_noise :=
    uniforms.noise.get_noise_3d (position.x * 20) (position.y * 20) (position.z * 20)
  let metal_factor := (metallic_noise + 1) * 0.5
  let hull_color :=
    if 0.7 < metal_factor then lerp_color base_metal highlight ((metal_factor - 0.7) / 0.3)
    else if metal_factor < 0.3 then lerp_color shadow base_metal (metal_factor / 0.3)
    else base_metal
  let pulse := (Real.sin (time * 4) + 1) * 0.5
  let engine_glow := Color.from_hex 0x00AAFF
  if position.z < -0.2 ∧ 0.6 < pulse then
    blend_colors hull_color engine_glow ((pulse - 0.6) * 2.5)
  else
    hull_color

/-- `fragment_shader` from `shaders.rs`: exhaustive dispatch over the
closed `ShaderType` variants. -/
def fragment_shader (fragment : Fragment) (uniforms : Uniforms)
    (shader_type : ShaderType) : Color :=
  match shader_type with
  | ShaderType.Sun => sun_shader fragment uniforms
  | ShaderType.RockyPlanet => rocky_planet_shader fragment uniforms
  | ShaderType.GasGiant => gas_giant_shader fragment uniforms
  | ShaderType.Moon => moon_shader fragment uniforms
  | ShaderType.RingedPlanet => rings_shader fragment uniforms
  | ShaderType.Starfield => starfield_shader fragment uniforms
  | ShaderType.Ship => ship_shader fragment uniforms

/-- Modelled from the spec: `Framebuffer` (`framebuffer.rs` missing), per
spec.md §3/§4.3 — color and depth buffers indexed by pixel, a background
color and the current-draw-color register.  The `width*height` arrays are
modelled as total functions on pixel pairs. -/
structure Framebuffer where
  width : ℕ
  height : ℕ
  colors : ℕ × ℕ → ℕ
  depths : ℕ × ℕ → ℝ
  background_color : ℕ
  current_color : ℕ

/-- Modelled from the spec: `set_current_color` stores the packed draw
color used by subsequent `point` calls. -/
def Framebuffer.set_current_color (fb : Framebuffer) (c : ℕ) : Framebuffer :=
  { fb with current_color := c }

/-- Modelled from the spec: `point(x, y, depth)` per spec.md §4.3 — commit
the current draw color and the new depth iff `depth` is strictly less
than the stored depth at the pixel; otherwise leave both buffers alone. -/
def Framebuffer.point (fb : Framebuffer) (x y : ℕ) (depth : ℝ) : Framebuffer :=
  if depth < fb.depths (x, y) then
    { fb with
      colors := fun p => if p = (x, y) then fb.current_color else fb.colors p
      depths := fun p => if p = (x, y) then depth else fb.depths p }
  else
    fb

/-- A single depth-tested point write, as in spec.md §8: a (pixel, depth,
color) triple issued against a framebuffer. -/
structure PointWrite where
  pixel : ℕ × ℕ
  depth : ℝ
  color : ℕ

/-- Issue one write: set the draw color, then `point` at the pixel. -/
def applyWrite (fb : Framebuffer) (w : PointWrite) : Framebuffer :=
  (fb.set_current_color w.color).point w.pixel.1 w.pixel.2 w.depth

/-- Issue a sequence of writes in order. -/
def applyWrites (fb : Framebuffer) (l : List PointWrite) : Framebuffer :=
  l.foldl applyWrite fb

/-- The primitive-assembly loop of `render` (`main.rs`): group every three
consecutive transformed vertices into a triangle, dropping a trailing
partial group (the indexed loop `for i in (0..len).step_by(3)` guarded by
`i + 2 < len`). -/
def assembleTriangles {α : Type} : List α → List (α × α × α)
  | a :: b :: c :: rest => (a, b, c) :: assembleTriangles rest
  | _ => []

/-- The fragment-processing step of `render` (`main.rs`): cast the
fragment's pixel coordinates with `as usize`, test them against the
framebuffer extent, and on success shade the fragment and issue the
depth-tested point write. -/
def processFragment (uniforms : Uniforms) (shader_type : ShaderType)
    (fb : Framebuffer) (fragment : Fragment) : Framebuffer :=
  let x := f32ToUsize fragment.position.x
  let y := f32ToUsize fragment.position.y
  if x < fb.width ∧ y < fb.height then
    let shaded_color := fragment_shader fragment uniforms shader_type
    (fb.set_current_color shaded_color.to_hex).point x y fragment.depth
  else
    fb

/-- `render` from `main.rs`.  The rasterizer `triangle` (its `triangle.rs`
is not under `src/`) is passed in as the function argument `tri`; the four
stages — vertex shading, primitive assembly, rasterization, fragment
processing — follow the source. -/
def render (tri : Vertex → Vertex → Vertex → List Fragment)
    (fb : Framebuffer) (uniforms : Uniforms) (vertex_array : List Vertex)
    (shader_type : ShaderType) : Framebuffer :=
  let transformed_vertices := vertex_array.map (fun v => vertex_shader v uniforms)
  let triangles := assembleTriangles transformed_vertices
  let fragments := triangles.flatMap (fun t => tri t.1 t.2.1 t.2.2)
  fragments.foldl (processFragment uniforms shader_type) fb

/-- The scene background color installed by `main` (`main.rs` line 365:
`set_background_color(0x000011)`). -/
def scene_background_color : ℕ := 0x000011

/-! ### Helper lemmas about colors and casts -/

theorem Color.to_hex_div_65536 (c : Color) : c.to_hex / 65536 % 256 = c.r.val := by
  have hg := c.g.isLt
  have hb := c.b.isLt
  unfold Color.to_hex
  omega

theorem Color.to_hex_div_256 (c : Color) : c.to_hex / 256 % 256 = c.g.val := by
  have hg := c.g.isLt
  have hb := c.b.isLt
  unfold Color.to_hex
  omega

theorem Color.to_hex_mod_256 (c : Color) : c.to_hex % 256 = c.b.val := by
  have hg := c.g.isLt
  have hb := c.b.isLt
  unfold Color.to_hex
  omega

theorem f32ToU8_natCast (n : ℕ) (h : n < 256) : f32ToU8 (n : ℝ) = ⟨n, h⟩ := by
  unfold f32ToU8
  apply Fin.ext
  simp only [Int.floor_natCast, Int.toNat_natCast]
  omega

theorem f32ToU8_eq {x : ℝ} {n : ℕ} (hn : n < 256) (h1 : (n : ℝ) ≤ x)
    (h2 : x < n + 1) : f32ToU8 x = ⟨n, hn⟩ := by
  have hf : ⌊x⌋ = (n : ℤ) := by
    rw [Int.floor_eq_iff]
    constructor
    · exact_mod_cast h1
    · push_cast
      exact h2
  unfold f32ToU8
  apply Fin.ext
  simp only [hf, Int.toNat_natCast]
  omega

theorem rustClamp_eq_self {x lo hi : ℝ} (h1 : lo ≤ x) (h2 : x ≤ hi) :
    rustClamp x lo hi = x := by
  unfold rustClamp
  rw [if_neg (not_lt.2 h1), if_neg (not_lt.2 h2)]

theorem rustClamp_of_lt {x lo hi : ℝ} (h : x < lo) : rustClamp x lo hi = lo := by
  unfold rustClamp
  rw [if_pos h]

theorem rustClamp_of_gt {x lo hi : ℝ} (hlo : lo ≤ hi) (h : hi < x) :
    rustClamp x lo hi = hi := by
  unfold rustClamp
  rw [if_neg (not_lt.2 (hlo.trans h.le)), if_pos h]

theorem lerp_color_channels (a b : Color) (t : ℝ) :
    lerp_color a b t = Color.new
      (f32ToU8 ((a.r.val : ℝ) * (1 - rustClamp t 0 1) + (b.r.val : ℝ) * rustClamp t 0 1))
      (f32ToU8 ((a.g.val : ℝ) * (1 - rustClamp t 0 1) + (b.g.val : ℝ) * rustClamp t 0 1))
      (f32ToU8 ((a.b.val : ℝ) * (1 - rustClamp t 0 1) + (b.b.val : ℝ) * rustClamp t 0 1)) := by
  unfold lerp_color
  simp only [Color.to_hex_div_65536, Color.to_hex_div_256, Color.to_hex_mod_256]

theorem blend_colors_channels (a b : Color) (f : ℝ) :
    blend_colors a b f = Color.new
      (f32ToU8 ((a.r.val : ℝ) * (1 - rustClamp f 0 1) + (b.r.val : ℝ) * rustClamp f 0 1))
      (f32ToU8 ((a.g.val : ℝ) * (1 - rustClamp f 0 1) + (b.g.val : ℝ) * rustClamp f 0 1))
      (f32ToU8 ((a.b.val : ℝ) * (1 - rustClamp f 0 1) + (b.b.val : ℝ) * rustClamp f 0 1)) := by
  unfold blend_colors
  simp only [Color.to_hex_div_65536, Color.to_hex_div_256, Color.to_hex_mod_256]

theorem lerp_color_zero (a b : Color) : lerp_color a b 0 = a := by
  rw [lerp_color_channels, rustClamp_eq_self le_rfl zero_le_one]
  have h : ∀ (u v : Fin 256), f32ToU8 ((u.val : ℝ) * (1 - 0) + (v.val : ℝ) * 0) = u := by
    intro u v
    rw [show (u.val : ℝ) * (1 - 0) + (v.val : ℝ) * 0 = (u.val : ℝ) by ring,
      f32ToU8_natCast u.val u.isLt]
  rw [Color.new, h, h, h]

theorem lerp_color_one (a b : Color) : lerp_color a b 1 = b := by
  rw [lerp_color_channels, rustClamp_eq_self zero_le_one le_rfl]
  have h : ∀ (u v : Fin 256), f32ToU8 ((u.val : ℝ) * (1 - 1) + (v.val : ℝ) * 1) = v := by
    intro u v
    rw [show (u.val : ℝ) * (1 - 1) + (v.val : ℝ) * 1 = (v.val : ℝ) by ring,
      f32ToU8_natCast v.val v.isLt]
  rw [Color.new, h, h, h]

theorem blend_colors_zero (a b : Color) : blend_colors a b 0 = a := by
  rw [blend_colors_channels, rustClamp_eq_self le_rfl zero_le_one]
  have h : ∀ (u v : Fin 256), f32ToU8 ((u.val : ℝ) * (1 - 0) + (v.val : ℝ) * 0) = u := by
    intro u v
    rw [show (u.val : ℝ) * (1 - 0) + (v.val : ℝ) * 0 = (u.val : ℝ) by ring,
      f32ToU8_natCast u.val u.isLt]
  rw [Color.new, h, h, h]

/-! ### C7 -/

/-- C7: for all colors `a` and `b`, `lerp_color a b 0 = a` and
`lerp_color a b 1 = b`.  The interpolation is exact at the endpoints (the
truncation acts on an integral value), so the channels agree exactly — in
particular within the claim's integer-truncation tolerance of 1. -/
theorem lerp_color_endpoints_exact (a b : Color) :
    lerp_color a b 0 = a ∧ lerp_color a b 1 = b :=
  ⟨lerp_color_zero a b, lerp_color_one a b⟩

/-! ### C10 -/

/-- C10: `lerp_color` and `blend_colors` clamp their factor to `[0, 1]`:
below 0 they agree with the factor-0 result, above 1 with the factor-1
result, so they never extrapolate beyond the endpoint colors. -/
theorem lerp_blend_factor_clamped (a b : Color) (t : ℝ) :
    (t < 0 → lerp_color a b t = lerp_color a b 0 ∧ blend_colors a b t = blend_colors a b 0)
    ∧ (1 < t → lerp_color a b t = lerp_color a b 1 ∧ blend_colors a b t = blend_colors a b 1) := by
  constructor
  · intro h
    have hc : rustClamp t 0 1 = rustClamp 0 0 1 := by
      rw [rustClamp_of_lt h, rustClamp_eq_self le_rfl zero_le_one]
    exact ⟨by rw [lerp_color_channels, lerp_color_channels, hc],
      by rw [blend_colors_channels, blend_colors_channels, hc]⟩
  · intro h
    have hc : rustClamp t 0 1 = rustClamp 1 0 1 := by
      rw [rustClamp_of_gt zero_le_one h, rustClamp_eq_self zero_le_one le_rfl]
    exact ⟨by rw [lerp_color_channels, lerp_color_channels, hc],
      by rw [blend_colors_channels, blend_colors_channels, hc]⟩

/-- Witness for C10 at concrete colors and the factors −1 and 2. -/
theorem lerp_blend_factor_clamped_witness :
    ((-1 : ℝ) < 0 ∧
      lerp_color (Color.from_hex 0x123456) (Color.from_hex 0xABCDEF) (-1)
        = lerp_color (Color.from_hex 0x123456) (Color.from_hex 0xABCDEF) 0)
    ∧ ((1 : ℝ) < 2 ∧
      blend_colors (Color.from_hex 0x123456) (Color.from_hex 0xABCDEF) 2
        = blend_colors (Color.from_hex 0x123456) (Color.from_hex 0xABCDEF) 1) :=
  ⟨⟨by norm_num,
    ((lerp_blend_factor_clamped (Color.from_hex 0x123456) (Color.from_hex 0xABCDEF)
      (-1)).1 (by norm_num)).1⟩,
   ⟨by norm_num,
    ((lerp_blend_factor_clamped (Color.from_hex 0x123456) (Color.from_hex 0xABCDEF)
      2).2 (by norm_num)).2⟩⟩

/-! ### C6 -/

/-- C6: the RockyPlanet final color is the layered base color with every
channel multiplied by `0.3 + 0.7 * intensity`, and the Moon final color is
its layered color with every channel multiplied by the higher ambient
floor `0.4 + 0.6 * intensity`. -/
theorem ambient_floor_multipliers (f : Fragment) (u : Uniforms) :
    rocky_planet_shader f u = Color.new
      (f32ToU8 (((rocky_layered_color f u).r.val : ℝ) * (0.3 + 0.7 * f.intensity)))
      (f32ToU8 (((rocky_layered_color f u).g.val : ℝ) * (0.3 + 0.7 * f.intensity)))
      (f32ToU8 (((rocky_layered_color f u).b.val : ℝ) * (0.3 + 0.7 * f.intensity)))
    ∧ moon_shader f u = Color.new
      (f32ToU8 (((moon_layered_color f u).r.val : ℝ) * (0.4 + 0.6 * f.intensity)))
      (f32ToU8 (((moon_layered_color f u).g.val : ℝ) * (0.4 + 0.6 * f.intensity)))
      (f32ToU8 (((moon_layered_color f u).b.val : ℝ) * (0.4 + 0.6 * f.intensity))) := by
  constructor
  · have hm : f.intensity * 0.7 + 0.3 = 0.3 + 0.7 * f.intensity := by ring
    unfold rocky_planet_shader Color.mulScalar
    rw [hm]
  · have hm : f.intensity * 0.6 + 0.4 = 0.4 + 0.6 * f.intensity := by ring
    unfold moon_shader Color.mulScalar
    rw [hm]

/-! ### C8 -/

/-- C8: `Uniforms::new` installs an identically configured noise generator
(the default OpenSimplex2 sampler) no matter which matrices and time are
passed, and the material shaders read only the time and the noise from the
uniforms; hence two separately constructed `Uniforms` with equal time give
bit-for-bit identical colors for every fragment and every material. -/
theorem uniforms_new_reproducible (m v p vp m' v' p' vp' : Mat4) (t t' : ℝ)
    (frag : Fragment) (st : ShaderType) :
    (Uniforms.new m v p vp t).noise = (Uniforms.new m' v' p' vp' t').noise
    ∧ fragment_shader frag (Uniforms.new m v p vp t) st
        = fragment_shader frag (Uniforms.new m' v' p' vp' t) st := by
  refine ⟨rfl, ?_⟩
  cases st <;> rfl

/-! ### C3 -/

/-- C3 (amended): the RingedPlanet shader returns the constant color
`0x000000` for every fragment whose XZ radial distance is below 1.1 or
above 1.4, and likewise for every in-band fragment whose concentric
ring-pattern value falls below 0.4.  (That constant is plain black, not
the scene background color `0x000011` — see the counterexample.) -/
theorem rings_transparent_gates (f : Fragment) (u : Uniforms) :
    (rings_distance f < 1.1 ∨ 1.4 < rings_distance f →
      rings_shader f u = Color.from_hex 0x000000)
    ∧ (1.1 ≤ rings_distance f → rings_distance f ≤ 1.4 →
      ring_pattern_value f < 0.4 → rings_shader f u = Color.from_hex 0x000000) := by
  constructor
  · intro h
    simp only [rings_shader]
    rw [if_pos h]
  · intro h1 h2 h3
    simp only [rings_shader]
    rw [if_neg (by push_neg; exact ⟨not_lt.1 (by exact not_lt.2 h1), h2⟩), if_pos h3]

/-- A fragment whose model-space position lies outside the ring band. -/
def fragRingsFar : Fragment :=
  ⟨⟨0, 0⟩, Color.from_hex 0, 0, ⟨0, 0, 0⟩, ⟨2, 0, 0⟩, 1⟩

/-- A fragment inside the band whose ring pattern evaluates to 0.25
(its radius is `11π/30`, so the pattern's sine vanishes). -/
def fragRingsBand : Fragment :=
  ⟨⟨0, 0⟩, Color.from_hex 0, 0, ⟨0, 0, 0⟩, ⟨11 * Real.pi / 30, 0, 0⟩, 1⟩

/-- Uniforms built by `Uniforms::new` from zero matrices at time 0. -/
def uZero : Uniforms := Uniforms.new Mat4.zero Mat4.zero Mat4.zero Mat4.zero 0

theorem rings_distance_fragRingsFar : rings_distance fragRingsFar = 2 := by
  show Real.sqrt ((2 : ℝ) * 2 + 0 * 0) = 2
  rw [show (2 : ℝ) * 2 + 0 * 0 = 2 ^ 2 by norm_num,
    Real.sqrt_sq (by norm_num : (0 : ℝ) ≤ 2)]

theorem rings_distance_fragRingsBand :
    rings_distance fragRingsBand = 11 * Real.pi / 30 := by
  show Real.sqrt (11 * Real.pi / 30 * (11 * Real.pi / 30) + 0 * 0) = 11 * Real.pi / 30
  rw [show 11 * Real.pi / 30 * (11 * Real.pi / 30) + 0 * 0 = (11 * Real.pi / 30) ^ 2 by
      ring,
    Real.sqrt_sq (by positivity)]

theorem ring_pattern_fragRingsBand : ring_pattern_value fragRingsBand = 0.25 := by
  unfold ring_pattern_value
  rw [rings_distance_fragRingsBand,
    show 11 * Real.pi / 30 * 30 = (11 : ℕ) * Real.pi by push_cast; ring,
    Real.sin_nat_mul_pi]
  norm_num

/-- Counterexample to C3 as stated: at the out-of-band fragment with
radius 2 the RingedPlanet shader returns `0x000000`, which is not the
scene's configured background color `0x000011`. -/
theorem rings_background_counterexample :
    1.4 < rings_distance fragRingsFar
    ∧ rings_shader fragRingsFar uZero ≠ Color.from_hex scene_background_color := by
  refine ⟨by rw [rings_distance_fragRingsFar]; norm_num, ?_⟩
  have hres : rings_shader fragRingsFar uZero = Color.from_hex 0 := by
    simp only [rings_shader]
    rw [if_pos (Or.inr (by rw [rings_distance_fragRingsFar]; norm_num))]
  rw [hres]
  intro hcontra
  have hb := congrArg (fun c => c.b.val) hcontra
  simp only [Color.from_hex, scene_background_color] at hb
  norm_num at hb

/-- Witness for C3 at the two concrete fragments. -/
theorem rings_transparent_gates_witness :
    (1.4 < rings_distance fragRingsFar
      ∧ rings_shader fragRingsFar uZero = Color.from_hex 0x000000)
    ∧ (1.1 ≤ rings_distance fragRingsBand ∧ rings_distance fragRingsBand ≤ 1.4
      ∧ ring_pattern_value fragRingsBand < 0.4
      ∧ rings_shader fragRingsBand uZero = Color.from_hex 0x000000) := by
  have hπl : (3 : ℝ) < Real.pi := Real.pi_gt_three
  have hπu : Real.pi < 3.15 := Real.pi_lt_d2
  have hfar : 1.4 < rings_distance fragRingsFar := by
    rw [rings_distance_fragRingsFar]; norm_num
  have hlo : 1.1 ≤ rings_distance fragRingsBand := by
    rw [rings_distance_fragRingsBand]; linarith
  have hhi : rings_distance fragRingsBand ≤ 1.4 := by
    rw [rings_distance_fragRingsBand]; linarith
  have hpat : ring_pattern_value fragRingsBand < 0.4 := by
    rw [ring_pattern_fragRingsBand]; norm_num
  exact ⟨⟨hfar, (rings_transparent_gates fragRingsFar uZero).1 (Or.inr hfar)⟩,
    hlo, hhi, hpat,
    (rings_transparent_gates fragRingsBand uZero).2 hlo hhi hpat⟩

/-! ### C5 -/

/-- Formalisation of C5's reading of the spec: the `(1 - distance)^3` rim
term brightens *every* fragment's silhouette, in addition to the sunspot
darkening applied exactly where the second noise sample exceeds 0.5.
Compare with `sun_shader`, where the rim blend sits inside the sunspot
branch. -/
def spec_sun_shader (fragment : Fragment) (uniforms : Uniforms) : Color :=
  blend_colors
    (if 0.5 < sun_spot_noise fragment uniforms then
      blend_colors (sun_with_plasma fragment uniforms) (Color.from_hex 0x994400)
        ((sun_spot_noise fragment uniforms - 0.5) * 2 * 0.4)
    else sun_with_plasma fragment uniforms)
    (Color.from_hex 0xFFFFAA)
    ((1 - sun_distance fragment) ^ (3 : ℕ) * 0.3)

/-- C5 (amended): the rim term weighted by `(1 - distance)^3` is applied
only together with the sunspot darkening, i.e. exactly where the second,
slower noise sample exceeds 0.5; where that sample is at most 0.5 the Sun
shader returns the plasma layer with no rim brightening. -/
theorem sun_rim_only_with_spots (f : Fragment) (u : Uniforms) :
    (0.5 < sun_spot_noise f u →
      sun_shader f u = blend_colors
        (blend_colors (sun_with_plasma f u) (Color.from_hex 0x994400)
          ((sun_spot_noise f u - 0.5) * 2 * 0.4))
        (Color.from_hex 0xFFFFAA) ((1 - sun_distance f) ^ (3 : ℕ) * 0.3))
    ∧ (sun_spot_noise f u ≤ 0.5 → sun_shader f u = sun_with_plasma f u) := by
  constructor
  · intro h
    unfold sun_shader
    rw [if_pos h]
  · intro h
    unfold sun_shader
    rw [if_neg (not_lt.2 h)]

/-- A fragment at the model-space origin with unit intensity. -/
def fSun : Fragment :=
  ⟨⟨0, 0⟩, Color.from_hex 0, 0, ⟨0, 0, 0⟩, ⟨0, 0, 0⟩, 1⟩

/-- Uniforms whose noise sampler returns 1 everywhere (time 0). -/
def uNoiseOne : Uniforms :=
  ⟨Mat4.zero, Mat4.zero, Mat4.zero, Mat4.zero, 0, ⟨fun _ _ _ => 1, fun _ _ => 1⟩⟩

theorem f32ToU8_val_eq {x : ℝ} {n : ℕ} (hn : n < 256) (h1 : (n : ℝ) ≤ x)
    (h2 : x < n + 1) : (f32ToU8 x).val = n := by
  rw [f32ToU8_eq hn h1 h2]

theorem sun_distance_fSun : sun_distance fSun = 0 := by
  show Real.sqrt ((0 : ℝ) * 0 + 0 * 0 + 0 * 0) = 0
  rw [show (0 : ℝ) * 0 + 0 * 0 + 0 * 0 = 0 by norm_num, Real.sqrt_zero]

theorem sun_base_color_fSun : sun_base_color fSun = Color.from_hex 0xFFFACD := by
  unfold sun_base_color
  rw [sun_distance_fSun, if_pos (by norm_num : (0 : ℝ) < 0.5),
    show (0 : ℝ) * 2 = 0 by norm_num, lerp_color_zero]

theorem sun_with_plasma_fSun :
    sun_with_plasma fSun uZero
      = ⟨⟨255, by norm_num⟩, ⟨238, by norm_num⟩, ⟨174, by norm_num⟩⟩ := by
  unfold sun_with_plasma
  rw [sun_base_color_fSun, show sun_plasma_noise fSun uZero = 0 from rfl,
    blend_colors_channels, rustClamp_eq_self (by norm_num) (by norm_num)]
  unfold Color.new
  congr 1
  · exact f32ToU8_eq (by norm_num) (by norm_num [Color.from_hex])
      (by norm_num [Color.from_hex])
  · exact f32ToU8_eq (by norm_num) (by norm_num [Color.from_hex])
      (by norm_num [Color.from_hex])
  · exact f32ToU8_eq (by norm_num) (by norm_num [Color.from_hex])
      (by norm_num [Color.from_hex])

/-- Counterexample to C5 as stated: at the origin fragment with all-zero
noise the spot sample is 0 ≤ 0.5, the Sun shader returns the plasma layer
(green channel 238) while the spec's always-applied rim version yields
green channel 243; the code output therefore contains no rim term. -/
theorem sun_rim_counterexample :
    sun_shader fSun uZero ≠ spec_sun_shader fSun uZero := by
  have hcode : sun_shader fSun uZero
      = ⟨⟨255, by norm_num⟩, ⟨238, by norm_num⟩, ⟨174, by norm_num⟩⟩ := by
    unfold sun_shader
    rw [if_neg (by rw [show sun_spot_noise fSun uZero = 0 from rfl]; norm_num)]
    exact sun_with_plasma_fSun
  have hspec : (spec_sun_shader fSun uZero).g.val = 243 := by
    unfold spec_sun_shader
    rw [if_neg (by rw [show sun_spot_noise fSun uZero = 0 from rfl]; norm_num),
      sun_with_plasma_fSun, sun_distance_fSun, blend_colors_channels,
      rustClamp_eq_self (by norm_num) (by norm_num)]
    exact f32ToU8_val_eq (by norm_num) (by norm_num [Color.from_hex])
      (by norm_num [Color.from_hex])
  intro h
  rw [hcode] at h
  have hg := congrArg (fun c => c.g.val) h
  change (238 : ℕ) = (spec_sun_shader fSun uZero).g.val at hg
  rw [hspec] at hg
  norm_num at hg

/-- Witness for C5: the sunspot branch at all-one noise and the plain
plasma branch at all-zero noise. -/
theorem sun_rim_only_with_spots_witness :
    (0.5 < sun_spot_noise fSun uNoiseOne
      ∧ sun_shader fSun uNoiseOne = blend_colors
          (blend_colors (sun_with_plasma fSun uNoiseOne) (Color.from_hex 0x994400)
            ((sun_spot_noise fSun uNoiseOne - 0.5) * 2 * 0.4))
          (Color.from_hex 0xFFFFAA) ((1 - sun_distance fSun) ^ (3 : ℕ) * 0.3))
    ∧ (sun_spot_noise fSun uZero ≤ 0.5
      ∧ sun_shader fSun uZero = sun_with_plasma fSun uZero) := by
  have h1 : 0.5 < sun_spot_noise fSun uNoiseOne := by
    rw [show sun_spot_noise fSun uNoiseOne = 1 from rfl]
    norm_num
  have h2 : sun_spot_noise fSun uZero ≤ 0.5 := by
    rw [show sun_spot_noise fSun uZero = 0 from rfl]
    norm_num
  exact ⟨⟨h1, (sun_rim_only_with_spots fSun uNoiseOne).1 h1⟩,
    ⟨h2, (sun_rim_only_with_spots fSun uZero).2 h2⟩⟩

/-! ### C2 -/

/-- Formalisation of C2's/the spec's words: the normal matrix is the
*transpose of the inverse* of the model matrix's upper-left 3×3 block,
falling back to the identity when that block is singular. -/
def spec_normal_matrix (m : Mat4) : Mat3 :=
  ((m.upperLeft3.tryInverse).map Mat3.transpose).getD Mat3.identity

theorem Mat3.tryInverse_mul_self (a : Mat3) (h : a.det ≠ 0) :
    ((a.tryInverse).getD Mat3.identity).mul a = Mat3.identity := by
  unfold Mat3.tryInverse
  rw [if_neg h]
  simp only [Option.getD_some]
  apply Mat3.ext <;>
    (simp only [Mat3.mul, Mat3.identity]
     field_simp
     try unfold Mat3.det
     try unfold Mat3.det at h
     ring)

/-- C2 (amended): `vertex_shader` transforms the model-space normal by the
plain *inverse* of the model matrix's upper-left 3×3 block (because the
column-major `usize` indexing extracts the block transposed and the
explicit `.transpose()` then cancels it), not by the transpose of that
inverse; when the block is singular the identity matrix is used instead.
The applied matrix is a genuine left inverse of the block. -/
theorem vertex_shader_normal_matrix (u : Uniforms) (v : Vertex) :
    (vertex_shader v u).transformed_normal
      = (((u.model_matrix.upperLeft3).tryInverse).getD Mat3.identity).mulVec v.normal
    ∧ ((u.model_matrix.upperLeft3).det ≠ 0 →
        ((((u.model_matrix.upperLeft3).tryInverse).getD Mat3.identity).mul
          u.model_matrix.upperLeft3) = Mat3.identity)
    ∧ ((u.model_matrix.upperLeft3).det = 0 →
        (((u.model_matrix.upperLeft3).tryInverse).getD Mat3.identity) = Mat3.identity) := by
  refine ⟨rfl, fun h => Mat3.tryInverse_mul_self _ h, fun h => ?_⟩
  unfold Mat3.tryInverse
  rw [if_pos h]
  rfl

/-- Model matrix whose upper-left block is the rotation by 90° about Z
(a non-symmetric orthogonal block, so inverse ≠ transpose of inverse). -/
def mRotZ : Mat4 :=
  ⟨0, -1, 0, 0, 1, 0, 0, 0, 0, 0, 1, 0, 0, 0, 0, 1⟩

/-- Uniforms with the rotation model matrix. -/
def uRotZ : Uniforms :=
  Uniforms.new mRotZ Mat4.identity Mat4.identity Mat4.identity 0

/-- A vertex with unit-x normal. -/
def vNormalX : Vertex := Vertex.new ⟨0, 0, 0⟩ ⟨1, 0, 0⟩ ⟨0, 0⟩

theorem tryInverse_rotZ :
    Mat3.tryInverse ⟨0, -1, 0, 1, 0, 0, 0, 0, 1⟩
      = some ⟨0, 1, 0, -1, 0, 0, 0, 0, 1⟩ := by
  norm_num [Mat3.tryInverse, Mat3.det, Mat3.mk.injEq]

/-- Counterexample to C2 as stated: with the 90° Z-rotation model matrix
and the normal (1,0,0), `vertex_shader` outputs (0,−1,0) while the spec's
transpose-of-inverse normal matrix yields (0,1,0). -/
theorem normal_matrix_counterexample :
    (vertex_shader vNormalX uRotZ).transformed_normal
      ≠ (spec_normal_matrix uRotZ.model_matrix).mulVec vNormalX.normal := by
  intro h
  have hL : (vertex_shader vNormalX uRotZ).transformed_normal
      = Mat3.mulVec ⟨0, 1, 0, -1, 0, 0, 0, 0, 1⟩ ⟨1, 0, 0⟩ := by
    show Mat3.mulVec
      ((Mat3.tryInverse ⟨0, -1, 0, 1, 0, 0, 0, 0, 1⟩).getD Mat3.identity) ⟨1, 0, 0⟩ = _
    rw [tryInverse_rotZ, Option.getD_some]
  have hR : (spec_normal_matrix uRotZ.model_matrix).mulVec vNormalX.normal
      = Mat3.mulVec ⟨0, -1, 0, 1, 0, 0, 0, 0, 1⟩ ⟨1, 0, 0⟩ := by
    unfold spec_normal_matrix
    rw [show Mat4.upperLeft3 uRotZ.model_matrix = (⟨0, -1, 0, 1, 0, 0, 0, 0, 1⟩ : Mat3)
        from rfl,
      tryInverse_rotZ]
    rfl
  rw [hL, hR] at h
  have hy := congrArg Vec3.y h
  unfold Mat3.mulVec at hy
  norm_num at hy

/-- Witness for C2: an invertible block (identity model matrix) where the
applied matrix left-inverts the block, and a singular block (zero model
matrix) where the fallback is the identity. -/
theorem vertex_shader_normal_matrix_witness :
    ((Mat4.upperLeft3 (Uniforms.new Mat4.identity Mat4.identity Mat4.identity
        Mat4.identity 0).model_matrix).det ≠ 0
      ∧ (((Mat4.upperLeft3 (Uniforms.new Mat4.identity Mat4.identity Mat4.identity
          Mat4.identity 0).model_matrix).tryInverse).getD Mat3.identity).mul
          (Mat4.upperLeft3 (Uniforms.new Mat4.identity Mat4.identity Mat4.identity
            Mat4.identity 0).model_matrix) = Mat3.identity)
    ∧ ((Mat4.upperLeft3 uZero.model_matrix).det = 0
      ∧ ((Mat4.upperLeft3 uZero.model_matrix).tryInverse).getD Mat3.identity
          = Mat3.identity) := by
  have hdet : (Mat4.upperLeft3 (Uniforms.new Mat4.identity Mat4.identity Mat4.identity
      Mat4.identity 0).model_matrix).det ≠ 0 := by
    norm_num [Mat4.upperLeft3, Mat3.det, Mat4.identity, Uniforms.new]
  have hdet0 : (Mat4.upperLeft3 uZero.model_matrix).det = 0 := by
    norm_num [Mat4.upperLeft3, Mat3.det, Mat4.zero, uZero, Uniforms.new]
  exact ⟨⟨hdet, (vertex_shader_normal_matrix (Uniforms.new Mat4.identity Mat4.identity
      Mat4.identity Mat4.identity 0) vNormalX).2.1 hdet⟩,
    ⟨hdet0, (vertex_shader_normal_matrix uZero vNormalX).2.2 hdet0⟩⟩

/-! ### C9 -/

theorem assembleTriangles_length {α : Type} :
    ∀ l : List α, (assembleTriangles l).length = l.length / 3
  | [] => by simp [show assembleTriangles ([] : List α) = [] from rfl]
  | [a] => by simp [show assembleTriangles [a] = [] from rfl]
  | [a, b] => by simp [show assembleTriangles [a, b] = [] from rfl]
  | a :: b :: c :: rest => by
    show (assembleTriangles rest).length + 1 = (rest.length + 1 + 1 + 1) / 3
    rw [assembleTriangles_length rest]
    omega

theorem assembleTriangles_take {α : Type} :
    ∀ l : List α, assembleTriangles (l.take (3 * (l.length / 3))) = assembleTriangles l
  | [] => by rw [show 3 * (([] : List α).length / 3) = 0 by norm_num, List.take_zero]
  | [a] => by
    rw [show 3 * ([a].length / 3) = 0 by norm_num, List.take_zero,
      show assembleTriangles ([] : List α) = [] from rfl,
      show assembleTriangles [a] = [] from rfl]
  | [a, b] => by
    rw [show 3 * ([a, b].length / 3) = 0 by norm_num, List.take_zero,
      show assembleTriangles ([] : List α) = [] from rfl,
      show assembleTriangles [a, b] = [] from rfl]
  | a :: b :: c :: rest => by
    have e1 : 3 * ((a :: b :: c :: rest).length / 3)
        = (3 * (rest.length / 3) + 1 + 1) + 1 := by
      simp only [List.length_cons]
      omega
    rw [e1, List.take_succ_cons, List.take_succ_cons, List.take_succ_cons]
    show (a, b, c) :: assembleTriangles (rest.take (3 * (rest.length / 3)))
      = (a, b, c) :: assembleTriangles rest
    rw [assembleTriangles_take rest]

/-- C9: when the vertex array's length is not a multiple of 3, `render`
silently ignores the trailing `n mod 3` transformed vertices: exactly
`n / 3` triangles are assembled for rasterization, and the rendered
framebuffer is the same as for the truncated vertex array (no error is
raised — `render` is total). -/
theorem render_drops_trailing_vertices (tri : Vertex → Vertex → Vertex → List Fragment)
    (fb : Framebuffer) (u : Uniforms) (st : ShaderType) (va : List Vertex)
    (_hlen : va.length % 3 ≠ 0) :
    (assembleTriangles (va.map (fun v => vertex_shader v u))).length = va.length / 3
    ∧ render tri fb u va st = render tri fb u (va.take (3 * (va.length / 3))) st := by
  constructor
  · rw [assembleTriangles_length, List.length_map]
  · simp only [render]
    have htri : assembleTriangles ((va.take (3 * (va.length / 3))).map
          (fun v => vertex_shader v u))
        = assembleTriangles (va.map (fun v => vertex_shader v u)) := by
      rw [List.map_take,
        show va.length = (va.map (fun v => vertex_shader v u)).length by
          rw [List.length_map]]
      exact assembleTriangles_take _
    rw [htri]

/-- A vertex used only to build concrete vertex arrays. -/
def vDummy : Vertex := Vertex.new ⟨0, 0, 0⟩ ⟨0, 0, 0⟩ ⟨0, 0⟩

/-- A rasterizer producing no fragments. -/
def triEmpty : Vertex → Vertex → Vertex → List Fragment := fun _ _ _ => []

/-- A 2×2 framebuffer filled with the scene background and a far depth. -/
def fbSmall : Framebuffer := ⟨2, 2, fun _ => 0x000011, fun _ => 1000, 0x000011, 0⟩

/-- Witness for C9 on a 4-vertex array. -/
theorem render_drops_trailing_vertices_witness :
    [vDummy, vDummy, vDummy, vDummy].length % 3 ≠ 0
    ∧ (assembleTriangles ([vDummy, vDummy, vDummy, vDummy].map
        (fun v => vertex_shader v uZero))).length
      = [vDummy, vDummy, vDummy, vDummy].length / 3 := by
  have h : [vDummy, vDummy, vDummy, vDummy].length % 3 ≠ 0 := by norm_num
  exact ⟨h, (render_drops_trailing_vertices triEmpty fbSmall uZero
    ShaderType.Starfield [vDummy, vDummy, vDummy, vDummy] h).1⟩

/-! ### C4 -/

theorem processFragment_preserves_size (u : Uniforms) (st : ShaderType)
    (fb : Framebuffer) (f : Fragment) :
    (processFragment u st fb f).width = fb.width
    ∧ (processFragment u st fb f).height = fb.height := by
  simp only [processFragment, Framebuffer.point, Framebuffer.set_current_color]
  split_ifs <;> exact ⟨rfl, rfl⟩

theorem processFragment_oob (u : Uniforms) (st : ShaderType) (fb : Framebuffer)
    (f : Fragment) (p : ℕ × ℕ) (hp : fb.width ≤ p.1 ∨ fb.height ≤ p.2) :
    (processFragment u st fb f).colors p = fb.colors p
    ∧ (processFragment u st fb f).depths p = fb.depths p := by
  simp only [processFragment, Framebuffer.point, Framebuffer.set_current_color]
  split_ifs with h1 h2
  · have hne : p ≠ (f32ToUsize f.position.x, f32ToUsize f.position.y) := by
      intro hq
      subst hq
      obtain ⟨hx, hy⟩ := h1
      simp only [Prod.fst, Prod.snd] at hp
      omega
    exact ⟨if_neg hne, if_neg hne⟩
  · exact ⟨rfl, rfl⟩
  · exact ⟨rfl, rfl⟩

theorem foldl_processFragment_oob (u : Uniforms) (st : ShaderType) (p : ℕ × ℕ) :
    ∀ (frags : List Fragment) (fb : Framebuffer),
      fb.width ≤ p.1 ∨ fb.height ≤ p.2 →
      (frags.foldl (processFragment u st) fb).colors p = fb.colors p
      ∧ (frags.foldl (processFragment u st) fb).depths p = fb.depths p
  | [], _, _ => ⟨rfl, rfl⟩
  | f :: rest, fb, hp => by
    simp only [List.foldl_cons]
    obtain ⟨hw, hh⟩ := processFragment_preserves_size u st fb f
    have hp' : (processFragment u st fb f).width ≤ p.1
        ∨ (processFragment u st fb f).height ≤ p.2 := by
      rcases hp with h | h
      · exact Or.inl (by omega)
      · exact Or.inr (by omega)
    have ih := foldl_processFragment_oob u st p rest (processFragment u st fb f) hp'
    have hcell := processFragment_oob u st fb f p hp
    exact ⟨ih.1.trans hcell.1, ih.2.trans hcell.2⟩

/-- C4 (amended): during `render`, a fragment whose saturated integer
pixel coordinates reach the framebuffer extent (`x ≥ width` or
`y ≥ height`) is dropped before the point-write, and no pixel at or
beyond the extent is ever modified.  (Fragments with *negative*
coordinates, however, are clamped to row/column 0 by the `as usize`
cast and written there — see the counterexample.) -/
theorem render_bounds_behavior :
    (∀ (u : Uniforms) (st : ShaderType) (fb : Framebuffer) (frag : Fragment),
      fb.width ≤ f32ToUsize frag.position.x ∨ fb.height ≤ f32ToUsize frag.position.y →
      processFragment u st fb frag = fb)
    ∧ (∀ (tri : Vertex → Vertex → Vertex → List Fragment) (fb : Framebuffer)
        (u : Uniforms) (va : List Vertex) (st : ShaderType) (p : ℕ × ℕ),
      fb.width ≤ p.1 ∨ fb.height ≤ p.2 →
      (render tri fb u va st).colors p = fb.colors p
      ∧ (render tri fb u va st).depths p = fb.depths p) := by
  constructor
  · intro u st fb frag h
    simp only [processFragment]
    rw [if_neg (by
      intro hc
      obtain ⟨hx, hy⟩ := hc
      rcases h with h | h <;> omega)]
  · intro tri fb u va st p hp
    unfold render
    exact foldl_processFragment_oob u st p _ fb hp

/-- A fragment whose x pixel coordinate is negative. -/
def fragNegX : Fragment :=
  ⟨⟨-1, 0⟩, Color.from_hex 0, 0, ⟨0, 0, 0⟩, ⟨0, 0, 0⟩, 1⟩

/-- A rasterizer producing exactly the negative-x fragment. -/
def triNegX : Vertex → Vertex → Vertex → List Fragment := fun _ _ _ => [fragNegX]

/-- Counterexample to C4 as stated: a fragment with pixel x-coordinate −1
(outside the framebuffer bounds) is *not* dropped: the saturating cast
sends it to column 0, the point-write fires, and the stored pixel (0,0)
changes from the background to the shaded color. -/
theorem render_negative_coordinate_counterexample :
    fragNegX.position.x < 0
    ∧ (render triNegX fbSmall uZero [vDummy, vDummy, vDummy]
        ShaderType.Starfield).colors (0, 0) ≠ fbSmall.colors (0, 0) := by
  refine ⟨show (-1 : ℝ) < 0 by norm_num, ?_⟩
  have hx : f32ToUsize fragNegX.position.x = 0 := by
    show f32ToUsize (-1) = 0
    unfold f32ToUsize
    rw [show ((-1 : ℝ)) = ((-1 : ℤ) : ℝ) by norm_num, Int.floor_intCast]
    rfl
  have hy : f32ToUsize fragNegX.position.y = 0 := by
    show f32ToUsize 0 = 0
    unfold f32ToUsize
    rw [show ((0 : ℝ)) = ((0 : ℤ) : ℝ) by norm_num, Int.floor_intCast]
    rfl
  have hc : (fragment_shader fragNegX uZero ShaderType.Starfield).to_hex = 0 := by
    norm_num [fragment_shader, starfield_shader, Color.to_hex, Color.from_hex]
  have hrender : (render triNegX fbSmall uZero [vDummy, vDummy, vDummy]
      ShaderType.Starfield).colors (0, 0) = 0 := by
    show (processFragment uZero ShaderType.Starfield fbSmall fragNegX).colors (0, 0) = 0
    simp only [processFragment, hx, hy]
    rw [if_pos (by constructor <;> norm_num [fbSmall])]
    simp only [Framebuffer.point, Framebuffer.set_current_color, hc]
    rw [if_pos (by norm_num [fbSmall, fragNegX])]
    simp
  rw [hrender]
  show (0 : ℕ) ≠ 0x000011
  norm_num

/-- A fragment whose x pixel coordinate (5) exceeds `fbSmall`'s width. -/
def fragWide : Fragment :=
  ⟨⟨5, 0⟩, Color.from_hex 0, 0, ⟨0, 0, 0⟩, ⟨0, 0, 0⟩, 1⟩

/-- Witness for C4: an overflowing fragment is dropped, and an
out-of-bounds pixel survives a whole render unchanged. -/
theorem render_bounds_behavior_witness :
    (fbSmall.width ≤ f32ToUsize fragWide.position.x
      ∧ processFragment uZero ShaderType.Starfield fbSmall fragWide = fbSmall)
    ∧ (fbSmall.width ≤ ((2, 0) : ℕ × ℕ).1
      ∧ (render triNegX fbSmall uZero [vDummy, vDummy, vDummy]
          ShaderType.Starfield).colors (2, 0) = fbSmall.colors (2, 0)) := by
  have hx : f32ToUsize fragWide.position.x = 5 := by
    show f32ToUsize 5 = 5
    unfold f32ToUsize
    rw [show ((5 : ℝ)) = ((5 : ℤ) : ℝ) by norm_num, Int.floor_intCast]
    rfl
  have h1 : fbSmall.width ≤ f32ToUsize fragWide.position.x := by
    rw [hx]
    norm_num [fbSmall]
  have h2 : fbSmall.width ≤ ((2, 0) : ℕ × ℕ).1 := by norm_num [fbSmall]
  exact ⟨⟨h1, render_bounds_behavior.1 uZero ShaderType.Starfield fbSmall fragWide
      (Or.inl h1)⟩,
    ⟨h2, (render_bounds_behavior.2 triNegX fbSmall uZero [vDummy, vDummy, vDummy]
      ShaderType.Starfield (2, 0) (Or.inl h2)).1⟩⟩

/-! ### C1 -/

/-- The effect of one depth-tested write on a single pixel cell
(stored color, stored depth), fed a (depth, color) pair. -/
def cellStep (cell : ℕ × ℝ) (dc : ℝ × ℕ) : ℕ × ℝ :=
  if dc.1 < cell.2 then (dc.2, dc.1) else cell

theorem applyWrite_colors (fb : Framebuffer) (w : PointWrite) (p : ℕ × ℕ) :
    (applyWrite fb w).colors p
      = if w.pixel = p ∧ w.depth < fb.depths w.pixel then w.color else fb.colors p := by
  simp only [applyWrite, Framebuffer.point, Framebuffer.set_current_color, Prod.mk.eta]
  by_cases hd : w.depth < fb.depths w.pixel
  · rw [if_pos hd]
    by_cases hp : w.pixel = p
    · subst hp
      simp [hd]
    · have hp' : ¬(p = w.pixel) := fun h => hp h.symm
      simp [hd, hp, hp']
  · rw [if_neg hd, if_neg (fun h => hd h.2)]

theorem applyWrite_depths (fb : Framebuffer) (w : PointWrite) (p : ℕ × ℕ) :
    (applyWrite fb w).depths p
      = if w.pixel = p ∧ w.depth < fb.depths w.pixel then w.depth else fb.depths p := by
  simp only [applyWrite, Framebuffer.point, Framebuffer.set_current_color, Prod.mk.eta]
  by_cases hd : w.depth < fb.depths w.pixel
  · rw [if_pos hd]
    by_cases hp : w.pixel = p
    · subst hp
      simp [hd]
    · have hp' : ¬(p = w.pixel) := fun h => hp h.symm
      simp [hd, hp, hp']
  · rw [if_neg hd, if_neg (fun h => hd h.2)]

theorem applyWrite_cell (fb : Framebuffer) (w : PointWrite) (p : ℕ × ℕ) :
    ((applyWrite fb w).colors p, (applyWrite fb w).depths p)
      = if w.pixel = p then cellStep (fb.colors p, fb.depths p) (w.depth, w.color)
        else (fb.colors p, fb.depths p) := by
  rw [applyWrite_colors, applyWrite_depths]
  unfold cellStep
  by_cases hp : w.pixel = p
  · subst hp
    by_cases hd : w.depth < fb.depths w.pixel <;> simp [hd]
  · simp [hp]

theorem applyWrites_cell :
    ∀ (l : List PointWrite) (fb : Framebuffer) (p : ℕ × ℕ),
      ((applyWrites fb l).colors p, (applyWrites fb l).depths p)
        = List.foldl cellStep (fb.colors p, fb.depths p)
            ((l.filter (fun w => w.pixel = p)).map (fun w => (w.depth, w.color)))
  | [], _, _ => rfl
  | w :: rest, fb, p => by
    have ih := applyWrites_cell rest (applyWrite fb w) p
    have hw := applyWrite_cell fb w p
    simp only [applyWrites] at ih ⊢
    rw [List.foldl_cons, ih]
    by_cases hp : w.pixel = p
    · rw [if_pos hp] at hw
      rw [List.filter_cons_of_pos (by simpa using hp), List.map_cons,
        List.foldl_cons, hw]
    · rw [if_neg hp] at hw
      rw [List.filter_cons_of_neg (by simpa using hp), hw]

theorem cellStep_comm (c : ℕ × ℝ) (a b : ℝ × ℕ) (hab : a.1 ≠ b.1) :
    cellStep (cellStep c a) b = cellStep (cellStep c b) a := by
  rcases c with ⟨cc, cd⟩
  rcases a with ⟨ad, ac⟩
  rcases b with ⟨bd, bc⟩
  simp only at hab
  unfold cellStep
  dsimp only
  split_ifs <;>
    first
      | rfl
      | (exfalso; apply hab; dsimp only at *; linarith)

theorem foldl_cellStep_perm {l l' : List (ℝ × ℕ)} (hperm : l.Perm l') :
    l.Pairwise (fun a b => a.1 ≠ b.1) →
      ∀ c, l.foldl cellStep c = l'.foldl cellStep c := by
  induction hperm with
  | nil => exact fun _ _ => rfl
  | cons x _h ih =>
    intro hd c
    simp only [List.foldl_cons]
    exact ih (List.Pairwise.of_cons hd) _
  | swap x y l =>
    intro hd c
    simp only [List.foldl_cons]
    rw [cellStep_comm c y x ((List.pairwise_cons.mp hd).1 x (List.mem_cons_self x l))]
  | trans h1 _h2 ih1 ih2 =>
    intro hd c
    rw [ih1 hd c, ih2 ((h1.pairwise_iff (fun h => Ne.symm h)).mp hd) c]

theorem foldl_cellStep_stay :
    ∀ (ws : List (ℝ × ℕ)) (c : ℕ × ℝ), (∀ b ∈ ws, c.2 ≤ b.1) →
      ws.foldl cellStep c = c
  | [], _, _ => rfl
  | b0 :: rest, c, h => by
    simp only [List.foldl_cons]
    rw [show cellStep c b0 = c by
      unfold cellStep
      rw [if_neg (not_lt.2 (h b0 (List.mem_cons_self _ _)))]]
    exact foldl_cellStep_stay rest c (fun b hb => h b (List.mem_cons_of_mem _ hb))

theorem foldl_cellStep_min :
    ∀ (ws : List (ℝ × ℕ)) (c : ℕ × ℝ) (a : ℝ × ℕ),
      a ∈ ws → a.1 < c.2 → (∀ b ∈ ws, b ≠ a → a.1 < b.1) →
      ws.foldl cellStep c = (a.2, a.1)
  | [], _, _, ha, _, _ => absurd ha (List.not_mem_nil _)
  | b0 :: rest, c, a, ha, hlt, hmin => by
    simp only [List.foldl_cons]
    by_cases hb : b0 = a
    · subst hb
      rw [show cellStep c b0 = (b0.2, b0.1) by unfold cellStep; rw [if_pos hlt]]
      refine foldl_cellStep_stay rest (b0.2, b0.1) (fun b hb' => ?_)
      by_cases hba : b = b0
      · subst hba
        exact le_refl _
      · exact (hmin b (List.mem_cons_of_mem _ hb') hba).le
    · have ha' : a ∈ rest := by
        rcases List.mem_cons.mp ha with h | h
        · exact absurd h.symm hb
        · exact h
      have hba : a.1 < b0.1 := hmin b0 (List.mem_cons_self _ _) hb
      have hlt' : a.1 < (cellStep c b0).2 := by
        unfold cellStep
        split_ifs with h
        · exact hba
        · exact hlt
      exact foldl_cellStep_min rest (cellStep c b0) a ha' hlt'
        (fun b hb' hne => hmin b (List.mem_cons_of_mem _ hb') hne)

/-- C1 (amended): issuing a set of (pixel, depth, color) writes against a
framebuffer is order-independent *provided* writes to the same pixel have
pairwise distinct depths (the strict comparison makes equal-depth writes
first-writer-wins, so ties are order-dependent — see the counterexample);
under that proviso each pixel holds the color and depth of its
minimum-depth write whenever that depth beats the initially stored depth. -/
theorem depth_writes_order_independent :
    (∀ (fb : Framebuffer) (l l' : List PointWrite), l.Perm l' →
      l.Pairwise (fun w w' => w.pixel = w'.pixel → w.depth ≠ w'.depth) →
      (applyWrites fb l).colors = (applyWrites fb l').colors
      ∧ (applyWrites fb l).depths = (applyWrites fb l').depths)
    ∧ (∀ (fb : Framebuffer) (l : List PointWrite) (w : PointWrite), w ∈ l →
      w.depth < fb.depths w.pixel →
      (∀ w' ∈ l, w'.pixel = w.pixel → w' ≠ w → w.depth < w'.depth) →
      (applyWrites fb l).colors w.pixel = w.color
      ∧ (applyWrites fb l).depths w.pixel = w.depth) := by
  constructor
  · intro fb l l' hperm hpw
    have key : ∀ p, ((applyWrites fb l).colors p, (applyWrites fb l).depths p)
        = ((applyWrites fb l').colors p, (applyWrites fb l').depths p) := by
      intro p
      rw [applyWrites_cell, applyWrites_cell]
      have hdist : ((l.filter (fun w => w.pixel = p)).map
          (fun w => (w.depth, w.color))).Pairwise (fun a b => a.1 ≠ b.1) := by
        refine List.Pairwise.map _ (fun a b h => h) ?_
        refine List.Pairwise.imp_of_mem ?_ (List.Pairwise.filter _ hpw)
        intro a b hma hmb hr
        have hpa : a.pixel = p := by simpa using (List.mem_filter.mp hma).2
        have hpb : b.pixel = p := by simpa using (List.mem_filter.mp hmb).2
        exact hr (hpa.trans hpb.symm)
      exact foldl_cellStep_perm ((hperm.filter _).map _) hdist _
    constructor
    · funext p
      exact congrArg Prod.fst (key p)
    · funext p
      exact congrArg Prod.snd (key p)
  · intro fb l w hmem hdepth hmin
    have key := applyWrites_cell l fb w.pixel
    have hmem' : (w.depth, w.color) ∈ (l.filter (fun x => x.pixel = w.pixel)).map
        (fun x => (x.depth, x.color)) :=
      List.mem_map_of_mem _ (List.mem_filter.mpr ⟨hmem, by simp⟩)
    have hmin' : ∀ b ∈ (l.filter (fun x => x.pixel = w.pixel)).map
        (fun x => (x.depth, x.color)), b ≠ (w.depth, w.color) → (w.depth, w.color).1 < b.1 := by
      intro b hb hne
      obtain ⟨x, hxmem, hxeq⟩ := List.mem_map.mp hb
      obtain ⟨hxl, hxp⟩ := List.mem_filter.mp hxmem
      have hxw : x ≠ w := by
        intro h
        subst h
        exact hne hxeq.symm
      have hlt := hmin x hxl (by simpa using hxp) hxw
      rw [← hxeq]
      exact hlt
    have hres := foldl_cellStep_min _ (fb.colors w.pixel, fb.depths w.pixel)
      (w.depth, w.color) hmem' hdepth hmin'
    rw [hres] at key
    exact ⟨congrArg Prod.fst key, congrArg Prod.snd key⟩

/-- A 1×1 framebuffer with far depth 1000. -/
def fb1 : Framebuffer := ⟨1, 1, fun _ => 0, fun _ => 1000, 0, 0⟩

/-- Two writes to pixel (0,0) with equal depth 1 and different colors. -/
def wTieA : PointWrite := ⟨(0, 0), 1, 5⟩

/-- The second equal-depth write. -/
def wTieB : PointWrite := ⟨(0, 0), 1, 7⟩

/-- Counterexample to C1 as stated: the two equal-depth writes to pixel
(0,0) commute in a permutation but leave different final color buffers —
the strict depth test keeps whichever color came first. -/
theorem depth_writes_counterexample :
    [wTieA, wTieB].Perm [wTieB, wTieA]
    ∧ (applyWrites fb1 [wTieA, wTieB]).colors
        ≠ (applyWrites fb1 [wTieB, wTieA]).colors := by
  refine ⟨List.Perm.swap wTieB wTieA [], ?_⟩
  intro h
  have h00 := congrFun h (0, 0)
  have e1 : (applyWrites fb1 [wTieA, wTieB]).colors (0, 0) = 5 := by
    simp only [applyWrites, List.foldl_cons, List.foldl_nil, applyWrite_colors,
      applyWrite_depths]
    norm_num [wTieA, wTieB, fb1]
  have e2 : (applyWrites fb1 [wTieB, wTieA]).colors (0, 0) = 7 := by
    simp only [applyWrites, List.foldl_cons, List.foldl_nil, applyWrite_colors,
      applyWrite_depths]
    norm_num [wTieA, wTieB, fb1]
  rw [e1, e2] at h00
  norm_num at h00

/-- A write with depth 5. -/
def wMinA : PointWrite := ⟨(0, 0), 5, 100⟩

/-- A write with the strictly smaller depth 3. -/
def wMinB : PointWrite := ⟨(0, 0), 3, 200⟩

/-- Witness for C1: distinct-depth writes to pixel (0,0): the two orders
agree and the pixel ends up with the minimum-depth write's color. -/
theorem depth_writes_order_independent_witness :
    (applyWrites fb1 [wMinA, wMinB]).colors = (applyWrites fb1 [wMinB, wMinA]).colors
    ∧ (applyWrites fb1 [wMinA, wMinB]).colors (0, 0) = 200 := by
  have hpw : List.Pairwise
      (fun w w' : PointWrite => w.pixel = w'.pixel → w.depth ≠ w'.depth)
      [wMinA, wMinB] := by
    refine List.pairwise_cons.mpr ⟨?_, List.pairwise_singleton _ _⟩
    intro w' hw' _
    have : w' = wMinB := by simpa using hw'
    subst this
    norm_num [wMinA, wMinB]
  have hperm : [wMinA, wMinB].Perm [wMinB, wMinA] := List.Perm.swap wMinB wMinA []
  have hmem : wMinB ∈ [wMinA, wMinB] := by simp
  have hdep : wMinB.depth < fb1.depths wMinB.pixel := by norm_num [wMinB, fb1]
  have hmin : ∀ w' ∈ [wMinA, wMinB], w'.pixel = wMinB.pixel → w' ≠ wMinB →
      wMinB.depth < w'.depth := by
    intro w' hw' _ hne
    have hw'' : w' = wMinA ∨ w' = wMinB := by simpa using hw'
    rcases hw'' with h | h
    · subst h
      norm_num [wMinA, wMinB]
    · exact absurd h hne
  exact ⟨(depth_writes_order_independent.1 fb1 _ _ hperm hpw).1,
    (depth_writes_order_independent.2 fb1 [wMinA, wMinB] wMinB hmem hdep hmin).1⟩

end

end SpaceTravel
